import Mathlib

/-!
Verification of the AGN-DB frontend query/search/export logic.

The JavaScript source is shallowly embedded: JSON scalar values become the
inductive type `JSVal` (numbers as rationals), result rows become association
lists, and `Array.prototype.sort` with a user comparator `cmp` is modelled as
a deterministic comparison sort (`List.insertionSort`) over the relation
`cmp a b ≤ 0`.  `String.prototype.localeCompare` is modelled as code-point
lexicographic comparison, which agrees with the default collation on the
ASCII field names and data the application handles.  `Number(string)` is
modelled for the decimal forms the data contains (optional sign, digits,
optional fraction); `String(number)` as decimal expansion.
-/

/-- A JavaScript JSON scalar as it appears in a result row. -/
inductive JSVal where
  | null : JSVal
  | undefined : JSVal
  | num : ℚ → JSVal
  | str : String → JSVal
deriving DecidableEq

/-- A result row: a mapping from field names to scalar values. -/
def Row : Type := List (String × JSVal)

instance : DecidableEq Row := by unfold Row; infer_instance

/-- Property access `row[field]`: a missing key yields `undefined`. -/
def rowGet (row : Row) (field : String) : JSVal :=
  match List.lookup field row with
  | some v => v
  | none => JSVal.undefined

/-- The JavaScript loose test `value == null` (true for null and undefined). -/
def isNullish : JSVal → Bool
  | JSVal.null => true
  | JSVal.undefined => true
  | _ => false

/-- Code-point lexicographic three-way comparison of character lists. -/
def charListCmp : List Char → List Char → Int
  | [], [] => 0
  | [], _ :: _ => -1
  | _ :: _, [] => 1
  | a :: as, b :: bs => if a < b then -1 else if b < a then 1 else charListCmp as bs

/-- Model of `String.prototype.localeCompare` (code-point collation). -/
def localeCompare (a b : String) : Int := charListCmp a.toList b.toList

/-- Strip leading and trailing whitespace from a character list
(model of `String.prototype.trim`). -/
def trimChars (l : List Char) : List Char :=
  ((l.dropWhile Char.isWhitespace).reverse.dropWhile Char.isWhitespace).reverse

/-- Scan for an occurrence of `sub` (model of `String.prototype.includes`). -/
def containsSeq (sub : List Char) : List Char → Bool
  | [] => sub.isEmpty
  | c :: t => sub.isPrefixOf (c :: t) || containsSeq sub t

/-- Model of `message.includes(sub)`. -/
def jsIncludes (s sub : String) : Bool := containsSeq sub.toList s.toList

/-- Numeric value of a decimal digit character. -/
def digitVal (c : Char) : ℕ := c.toNat - '0'.toNat

/-- Value of a list of decimal digit characters. -/
def natOfDigits (l : List Char) : ℕ := l.foldl (fun acc c => acc * 10 + digitVal c) 0

/-- Parse an unsigned decimal literal `digits [. digits]`
(at least one digit overall), as JavaScript `Number` accepts. -/
def parseDecimal (l : List Char) : Option ℚ :=
  let ip := l.takeWhile Char.isDigit
  match l.dropWhile Char.isDigit with
  | [] => if ip.isEmpty then none else some (natOfDigits ip)
  | '.' :: fp =>
      if fp.all Char.isDigit && !(ip.isEmpty && fp.isEmpty) then
        some ((natOfDigits ip : ℚ) + (natOfDigits fp : ℚ) / ((10 : ℚ) ^ fp.length))
      else none
  | _ => none

/-- Model of `Number(string)`: trimmed empty string is `0`; otherwise an
optionally signed decimal literal; `none` models `NaN`.  (Exponent and hex
forms, unused by the application data, are out of the model.) -/
def jsParseNumber (s : String) : Option ℚ :=
  let t := trimChars s.toList
  if t.isEmpty then some 0
  else
    match t with
    | '-' :: r => (parseDecimal r).map (fun q => -q)
    | '+' :: r => parseDecimal r
    | r => parseDecimal r

/-- Model of `Number(value)` on row scalars; `none` models `NaN`. -/
def toNumber : JSVal → Option ℚ
  | JSVal.num q => some q
  | JSVal.str s => jsParseNumber s
  | JSVal.null => some 0
  | JSVal.undefined => none

/-- Decimal digits of the fractional part `r / d`, with fuel. -/
def fracDigits : ℕ → ℕ → ℕ → List Char
  | 0, _, _ => []
  | _ + 1, 0, _ => []
  | fuel + 1, r, d => Nat.digitChar (r * 10 / d) :: fracDigits fuel (r * 10 % d) d

/-- Decimal rendering of a rational (model of JavaScript number-to-string
for the finite decimals the application handles). -/
def ratToString (q : ℚ) : String :=
  let sign := if q < 0 then "-" else ""
  let n := q.num.natAbs
  let ip := n / q.den
  let r := n % q.den
  sign ++ toString ip ++ (if r = 0 then "" else "." ++ String.mk (fracDigits 20 r q.den))

/-- Model of `String(value)` on row scalars. -/
def jsToString : JSVal → String
  | JSVal.str s => s
  | JSVal.num q => ratToString q
  | JSVal.null => "null"
  | JSVal.undefined => "undefined"

/-- Model of `String.prototype.toLowerCase` (character-wise lowercasing). -/
def jsToLower (s : String) : String := String.mk (s.toList.map Char.toLower)

/-- The preferred column order from `getOrderedColumns` in the source
(source identity fields, then redshift, then classification, then
photometry). -/
def preferredOrder : List String :=
  ["agn_id", "ra", "declination",
   "redshift_type", "z_value", "z_error",
   "spec_class", "gen_class", "xray_class", "best_class", "image_class", "sed_class",
   "band_label", "filter_name", "mag_value", "mag_error", "extinction"]

/-- Model of `Array.prototype.indexOf`: first index of `a`, `-1` if absent. -/
def jsIndexOf (l : List String) (a : String) : Int :=
  match l with
  | [] => -1
  | b :: t =>
      if b = a then 0
      else
        let r := jsIndexOf t a
        if r < 0 then -1 else r + 1

/-- The comparator passed to `.sort` by `getOrderedColumns`. -/
def compareCols (a b : String) : Int :=
  let indexA := jsIndexOf preferredOrder a
  let indexB := jsIndexOf preferredOrder b
  if 0 ≤ indexA ∧ 0 ≤ indexB then indexA - indexB
  else if 0 ≤ indexA then -1
  else if 0 ≤ indexB then 1
  else localeCompare a b

/-- The order induced by the `getOrderedColumns` comparator. -/
def colLE (a b : String) : Prop := compareCols a b ≤ 0

instance : DecidableRel colLE :=
  fun a b => inferInstanceAs (Decidable (compareCols a b ≤ 0))

/-- `getOrderedColumns` from `ExportDialog.jsx` / the search component:
sort the column names with the preferred-order comparator. -/
def getOrderedColumns (columns : List String) : List String :=
  List.insertionSort colLE columns

/-- The `fields` array of the search component (declared field names). -/
def fieldNames : List String :=
  ["agn_id", "ra", "declination", "band_label", "filter_name", "mag_value",
   "mag_error", "extinction", "redshift_type", "z_value", "z_error",
   "spec_class", "gen_class", "xray_class", "best_class", "image_class", "sed_class"]

/-- The `pagination` state of the search component. -/
structure Pagination where
  skip : ℕ
  limit : ℕ
  total : ℕ
  sort_field : Option String
  sort_direction : String
deriving DecidableEq

/-- The comparator used inside `getSortedResults` (returns a number whose
sign decides the order; numeric branch returns `aNum - bNum`). -/
def sortCompare (dir field : String) (a b : Row) : ℚ :=
  let aValue := rowGet a field
  let bValue := rowGet b field
  if isNullish aValue then (if dir = "asc" then -1 else 1)
  else if isNullish bValue then (if dir = "asc" then 1 else -1)
  else
    match toNumber aValue, toNumber bValue with
    | some aNum, some bNum => if dir = "asc" then aNum - bNum else bNum - aNum
    | _, _ =>
        let aStr := jsToLower (jsToString aValue)
        let bStr := jsToLower (jsToString bValue)
        let c : ℚ := (localeCompare aStr bStr : Int)
        if dir = "asc" then c else -c

/-- The sort relation induced by the `getSortedResults` comparator. -/
def sortLE (dir field : String) (a b : Row) : Prop := sortCompare dir field a b ≤ 0

instance : DecidableRel (sortLE dir field) :=
  fun a b => inferInstanceAs (Decidable (sortCompare dir field a b ≤ 0))

/-- `getSortedResults`: no sort field means the results are returned as-is;
otherwise they are sorted with the comparator. -/
def getSortedResults (results : List Row) (p : Pagination) : List Row :=
  match p.sort_field with
  | none => results
  | some f => List.insertionSort (sortLE p.sort_direction f) results

/-- `getPaginatedResults`: `getSortedResults().slice(skip, skip + limit)`. -/
def getPaginatedResults (results : List Row) (p : Pagination) : List Row :=
  ((getSortedResults results p).drop p.skip).take p.limit

/-- `getTotalPages`: `Math.max(1, Math.ceil(total / limit))`. -/
def getTotalPages (p : Pagination) : ℕ :=
  max 1 ((p.total + p.limit - 1) / p.limit)

/-- `getCurrentPage`: `Math.floor(skip / limit) + 1`. -/
def getCurrentPage (p : Pagination) : ℕ := p.skip / p.limit + 1

/-- `handlePageChange`: clamp the requested page into `[0, totalPages - 1]`
and set `skip` to `page * limit` when it changed. -/
def handlePageChange (newPage : Int) (p : Pagination) : Pagination :=
  let np : Int := if newPage < 0 then 0 else newPage
  let totalPages := getTotalPages p
  let np2 : Int := if (totalPages : Int) ≤ np then (totalPages : Int) - 1 else np
  let newSkip : Int := np2 * (p.limit : Int)
  if newSkip ≠ (p.skip : Int) then { p with skip := newSkip.toNat } else p

/-- `toggleAllColumns`: rebuild the visibility mapping with every column of
`columnOrder` set to `visible`. -/
def toggleAllColumns (columnOrder : List String) (visible : Bool) : List (String × Bool) :=
  columnOrder.map (fun c => (c, visible))

/-- Reading `visibleColumns[column] === true` on the mapping object. -/
def visibleLookup (m : List (String × Bool)) (c : String) : Bool :=
  match List.lookup c m with
  | some b => b
  | none => false

/-- `getVisibleColumns` from the search component, including its fallback:
when every mapping entry is false it returns the first three columns. -/
def getVisibleColumns (columnOrder : List String) (visibleColumns : List (String × Bool)) :
    List String :=
  if columnOrder.length = 0 then []
  else
    let visible := columnOrder.filter (fun c => visibleLookup visibleColumns c)
    if visible.length = 0 ∧ 0 < columnOrder.length then columnOrder.take 3 else visible

/-- A node of the react-querybuilder Query Tree: a rule (leaf) or a group.
Both carry the optional `valueSource` key that the combine step writes. -/
inductive QNode where
  | rule (field : String) (op : String) (value : String) (valueSource : Option String) : QNode
  | group (combinator : String) (rules : List QNode) (valueSource : Option String) : QNode

/-- The root of a Query Tree: `{combinator, rules}`. -/
structure QueryRoot where
  combinator : String
  rules : List QNode

/-- The spread `{...rule, valueSource: 'value'}` applied to a child node. -/
def setValueSourceValue : QNode → QNode
  | QNode.rule f o v _ => QNode.rule f o v (some "value")
  | QNode.group c rs _ => QNode.group c rs (some "value")

/-- The combined query built by `handleCombineQueries`. -/
def combineQueries (lastExecuted pending : QueryRoot) : QueryRoot :=
  { combinator := "or",
    rules := lastExecuted.rules.map setValueSourceValue
              ++ pending.rules.map setValueSourceValue }

/-- A JavaScript error value (as consumed by the UI error state). -/
structure JsError where
  name : String
  message : String
  status : Option ℕ
  details : Option String
deriving DecidableEq

/-- State of the search component relevant to submit/combine/cancel. -/
structure QSState where
  query : QueryRoot
  results : List Row
  error : Option JsError
  loading : Bool
  queryTakingTooLong : Bool
  pendingQuery : Option QueryRoot
  showQueryModal : Bool
  hasExecutedQuery : Bool
  lastExecutedQuery : Option QueryRoot

/-- `handleSubmit`: with prior results present, stash the pending query and
open the choice modal (no execution); otherwise record and execute the
query.  The boolean result tells whether `executeSearch` was invoked. -/
def handleSubmit (s : QSState) : QSState × Bool :=
  if s.hasExecutedQuery ∧ 0 < s.results.length then
    ({ s with pendingQuery := some s.query, showQueryModal := true }, false)
  else
    ({ s with lastExecutedQuery := some s.query, hasExecutedQuery := true }, true)

/-- `handleCombineQueries`: requires a previously executed query and a
pending query (the source dereferences both); clears results, installs the
combined query and executes.  The boolean marks the `executeSearch` call. -/
def handleCombineQueries (s : QSState) : Option (QSState × Bool) :=
  match s.lastExecutedQuery, s.pendingQuery with
  | some lq, some pq =>
      let cq := combineQueries lq pq
      let s2 := { s with
                    results := [], query := cq, lastExecutedQuery := some cq,
                    pendingQuery := none, showQueryModal := false,
                    hasExecutedQuery := true }
      some (s2, true)
  | _, _ => none

/-- `handleCancelSearch`: stop the spinner and set the deliberate
cancellation message as the error state.  (In the component the request
reference is never populated, so no abort is issued here.) -/
def handleCancelSearch (s : QSState) : QSState :=
  { s with
      loading := false, queryTakingTooLong := false,
      error := some { name := "", message := "Search cancelled by user",
                      status := none, details := none } }

/-- The timeout message produced by `apiRequest` for aborted requests. -/
def queryTimeoutMessage : String :=
  "Query timed out. Please refine your search criteria to make the query less complex."

/-- Outcome of the underlying `fetch` call as observed by `apiRequest`:
a rejection (abort or network error), a JSON response, or a non-JSON
response. -/
inductive FetchOutcome where
  | reject (e : JsError) : FetchOutcome
  | jsonResp (ok : Bool) (status : ℕ) (dataMessage : Option String)
      (dataDetail : Option String) : FetchOutcome
  | textResp (ok : Bool) (status : ℕ) (body : String) : FetchOutcome
deriving DecidableEq

/-- JavaScript `v || d` on an optional string (empty string is falsy). -/
def jsOrElse (v : Option String) (d : String) : String :=
  match v with
  | some s => if s = "" then d else s
  | none => d

/-- The error/result mapping performed by `apiRequest`: any `AbortError`
becomes the status-408 timeout error; HTTP failures carry the response
status and the body message; other rejections pass through. -/
def apiRequestResult : FetchOutcome → Except JsError Unit
  | FetchOutcome.reject e =>
      if e.name = "AbortError" then
        Except.error { name := "Error", message := queryTimeoutMessage,
                       status := some 408, details := none }
      else Except.error e
  | FetchOutcome.jsonResp ok status m d =>
      if ok then Except.ok ()
      else Except.error { name := "Error", message := jsOrElse m "An error occurred",
                          status := some status, details := d }
  | FetchOutcome.textResp ok status _ =>
      if ok then Except.ok ()
      else Except.error { name := "Error", message := "An error occurred",
                          status := some status, details := none }

/-- Why an in-flight request was aborted: the request-level timeout timer,
or a deliberate user cancellation through the exposed cancel function. -/
inductive AbortCause where
  | timerFired : AbortCause
  | userAborted : AbortCause
deriving DecidableEq

/-- Either abort cause produces the same `AbortError` rejection; the cause
is not observable by `apiRequest`. -/
def abortOutcome (_ : AbortCause) : FetchOutcome :=
  FetchOutcome.reject { name := "AbortError", message := "The user aborted a request.",
                        status := none, details := none }

/-- The catch clause of `exportResultsWithCancellation`: an `AbortError`
becomes the deliberate cancellation error; others pass through. -/
def exportCatchRejection (e : JsError) : JsError :=
  if e.name = "AbortError" then
    { name := "Error", message := "Export cancelled by user", status := none, details := none }
  else e

/-- `getErrorMessage` from `ErrorMessage.jsx`: translate technical error
messages into user-facing text. -/
def getErrorMessage (error : Option JsError) : String :=
  match error with
  | none => "An unknown error occurred"
  | some e =>
      let message := if e.message = "" then "An unknown error occurred" else e.message
      if jsIncludes message "timeout" || jsIncludes message "ETIMEDOUT" then
        "Query took too long to complete. Please try refining your search criteria to narrow the result set."
      else if jsIncludes message "500" then
        "The server encountered an issue processing your request. This may be due to the complexity of the query."
      else if jsIncludes message "400" then
        "Invalid query parameters. Please check your search criteria for errors."
      else if jsIncludes message "cancelled by user" then
        "Operation cancelled by user."
      else message

/-- The export options object sent in the request body. -/
structure ExportOpts where
  format : String
  selected_fields : Option (List String)
  include_metadata : Bool
deriving DecidableEq

/-- State of `ExportDialog` relevant to field selection and export. -/
structure ExportDialogState where
  format : String
  includeMetadata : Bool
  selectedFields : List String
  loading : Bool
  error : Option JsError

/-- The `disabled` condition of the Export button. -/
def exportButtonDisabled (s : ExportDialogState) : Bool :=
  s.selectedFields.length = 0

/-- The export options built by `handleExport`. -/
def buildExportOptions (s : ExportDialogState) : ExportOpts :=
  { format := s.format,
    selected_fields := if 0 < s.selectedFields.length then some s.selectedFields else none,
    include_metadata := s.includeMetadata }

/-- `handleCancelExport`: stop the spinner and set the deliberate
cancellation message as the dialog error state. -/
def handleCancelExport (s : ExportDialogState) : ExportDialogState :=
  { s with
      loading := false,
      error := some { name := "", message := "Export cancelled by user",
                      status := none, details := none } }

/-- Model of the regex search `/filename=([^;]+)/`: find a position where
`filename=` is followed by at least one non-semicolon character and return
that capture; otherwise keep scanning. -/
def jsFilenameMatch : List Char → Option (List Char)
  | [] => none
  | c :: rest =>
      if ("filename=".toList).isPrefixOf (c :: rest) then
        match ((c :: rest).drop 9).takeWhile (fun x => x ≠ ';') with
        | [] => jsFilenameMatch rest
        | cap => some cap
      else jsFilenameMatch rest

/-- The filename selection of `exportResults` / `exportResultsWithCancellation`:
start from `export.csv`; a present Content-Disposition header with a
`filename=` capture wins (trimmed, quotes removed); with no header the
vo-table format falls back to `agn_db_export.xml`. -/
def extractFilename (contentDisposition : Option String) (format : String) : String :=
  match contentDisposition with
  | some cd =>
      match jsFilenameMatch cd.toList with
      | some cap => String.mk ((trimChars cap).filter (fun c => c ≠ '"'))
      | none => "export.csv"
  | none => if format = "votable" then "agn_db_export.xml" else "export.csv"

/-- Alphabetical (code-point lexicographic) order on field names, as the
spec reads "ties break alphabetically by name". -/
def alphaLE (a b : String) : Prop :=
  a = b ∨ List.Lex (· < ·) a.toList b.toList

/-- The spec-side ordering contract for `getOrderedColumns`: preferred
fields come first in preferred-list order, the rest alphabetically. -/
def colSpecOrdered (a b : String) : Prop :=
  (a ∈ preferredOrder ∧ b ∈ preferredOrder
    ∧ jsIndexOf preferredOrder a ≤ jsIndexOf preferredOrder b)
  ∨ (a ∈ preferredOrder ∧ b ∉ preferredOrder)
  ∨ (a ∉ preferredOrder ∧ b ∉ preferredOrder ∧ alphaLE a b)

/-- Case-insensitive string order: compare the lowercased strings
code-point lexicographically. -/
def ciStringLE (a b : String) : Prop :=
  jsToLower a = jsToLower b
    ∨ List.Lex (· < ·) (jsToLower a).toList (jsToLower b).toList

/-- A concrete previously executed query (one rule, default value source). -/
def lqExample : QueryRoot :=
  { combinator := "and", rules := [QNode.rule "ra" ">" "1" none] }

/-- A concrete pending query (one rule, default value source). -/
def pqExample : QueryRoot :=
  { combinator := "and", rules := [QNode.rule "declination" "<" "0" none] }

/-- A concrete search-component state with results of an executed query. -/
def sExample : QSState :=
  { query := pqExample, results := [[("agn_id", JSVal.str "1")]], error := none,
    loading := false, queryTakingTooLong := false, pendingQuery := none,
    showQueryModal := false, hasExecutedQuery := true,
    lastExecutedQuery := some lqExample }

/-- A concrete export dialog state with one selected field. -/
def sdExample : ExportDialogState :=
  { format := "csv", includeMetadata := true, selectedFields := ["agn_id"],
    loading := false, error := none }

theorem charListCmp_neg : ∀ (a b : List Char), charListCmp b a = -charListCmp a b
  | [], [] => by simp [charListCmp]
  | [], _ :: _ => by simp [charListCmp]
  | _ :: _, [] => by simp [charListCmp]
  | a :: as, b :: bs => by
    simp only [charListCmp]
    rcases lt_trichotomy a b with h | h | h
    · rw [if_neg (lt_asymm h), if_pos h, if_pos h]; norm_num
    · subst h
      simp only [lt_irrefl, if_false]
      exact charListCmp_neg as bs
    · rw [if_pos h, if_neg (lt_asymm h), if_pos h]

theorem charListCmp_nonpos_trans :
    ∀ (a b c : List Char),
      charListCmp a b ≤ 0 → charListCmp b c ≤ 0 → charListCmp a c ≤ 0
  | [], b, [] => by intro h1 h2; simp [charListCmp]
  | [], b, _ :: _ => by intro h1 h2; simp [charListCmp]
  | a :: as, [], c => by intro h1 h2; simp [charListCmp] at h1
  | a :: as, b :: bs, [] => by intro h1 h2; simp [charListCmp] at h2
  | a :: as, b :: bs, c :: cs => by
    intro h1 h2
    simp only [charListCmp] at h1 h2 ⊢
    by_cases hab : a < b
    · by_cases hbc : b < c
      · rw [if_pos (lt_trans hab hbc)]; norm_num
      · by_cases hcb : c < b
        · rw [if_neg hbc, if_pos hcb] at h2; norm_num at h2
        · have hbceq : b = c := le_antisymm (le_of_not_lt hcb) (le_of_not_lt hbc)
          subst hbceq
          rw [if_pos hab]; norm_num
    · by_cases hba : b < a
      · rw [if_neg hab, if_pos hba] at h1; norm_num at h1
      · have habeq : a = b := le_antisymm (le_of_not_lt hba) (le_of_not_lt hab)
        subst habeq
        by_cases hac : a < c
        · rw [if_pos hac]; norm_num
        · by_cases hca : c < a
          · rw [if_neg hac, if_pos hca] at h2; norm_num at h2
          · rw [if_neg hac, if_neg hca] at h2 ⊢
            rw [if_neg hab, if_neg hab] at h1
            exact charListCmp_nonpos_trans as bs cs h1 h2

theorem charListCmp_nonpos_iff :
    ∀ (a b : List Char), charListCmp a b ≤ 0 ↔ (a = b ∨ List.Lex (· < ·) a b)
  | [], [] => by simp [charListCmp]
  | [], b :: bs => by
    refine iff_of_true (by simp [charListCmp]) (Or.inr List.Lex.nil)
  | a :: as, [] => by
    refine iff_of_false (by simp [charListCmp]) ?_
    rintro (h | h)
    · exact List.noConfusion h
    · cases h
  | a :: as, b :: bs => by
    simp only [charListCmp]
    rcases lt_trichotomy a b with h | h | h
    · refine iff_of_true (by rw [if_pos h]; norm_num) (Or.inr (List.Lex.rel h))
    · subst h
      rw [if_neg (lt_irrefl a), if_neg (lt_irrefl a)]
      rw [charListCmp_nonpos_iff as bs]
      constructor
      · rintro (h | h)
        · exact Or.inl (by rw [h])
        · exact Or.inr (List.Lex.cons h)
      · rintro (h | h)
        · exact Or.inl (by injection h)
        · cases h with
          | rel h' => exact absurd h' (lt_irrefl a)
          | cons h' => exact Or.inr h'
    · refine iff_of_false (by rw [if_neg (lt_asymm h), if_pos h]; norm_num) ?_
      rintro (heq | hlex)
      · injection heq with h1 h2
        exact absurd h1 (ne_of_gt h)
      · cases hlex with
        | rel h' => exact absurd h' (lt_asymm h)
        | cons h' => exact lt_irrefl a h

theorem jsIndexOf_nonneg_iff : ∀ (l : List String) (a : String), 0 ≤ jsIndexOf l a ↔ a ∈ l
  | [], a => by simp [jsIndexOf]
  | b :: t, a => by
    simp only [jsIndexOf]
    by_cases h : b = a
    · subst h; simp
    · rw [if_neg h]
      by_cases h2 : jsIndexOf t a < 0
      · simp only [h2, if_true]
        refine iff_of_false (by norm_num) ?_
        intro hmem
        rcases List.mem_cons.1 hmem with rfl | hmem'
        · exact h rfl
        · exact absurd ((jsIndexOf_nonneg_iff t a).2 hmem') (not_le.2 h2)
      · simp only [h2, if_false]
        push_neg at h2
        refine iff_of_true (by omega) ?_
        exact List.mem_cons_of_mem b ((jsIndexOf_nonneg_iff t a).1 h2)

theorem colLE_total (a b : String) : colLE a b ∨ colLE b a := by
  have hneg := charListCmp_neg a.toList b.toList
  unfold colLE compareCols localeCompare
  dsimp only
  split_ifs <;> omega

theorem colLE_trans (a b c : String) : colLE a b → colLE b c → colLE a c := by
  intro hab hbc
  have h1 := charListCmp_nonpos_trans a.toList b.toList c.toList
  unfold colLE compareCols localeCompare at hab hbc ⊢
  dsimp only at hab hbc ⊢
  split_ifs at hab hbc ⊢ <;> first | omega | exact h1 hab hbc

theorem colLE_spec {a b : String} (h : colLE a b) : colSpecOrdered a b := by
  unfold colLE compareCols at h
  dsimp only at h
  unfold colSpecOrdered
  by_cases ha : 0 ≤ jsIndexOf preferredOrder a <;>
    by_cases hb : 0 ≤ jsIndexOf preferredOrder b
  · rw [if_pos ⟨ha, hb⟩] at h
    exact Or.inl ⟨(jsIndexOf_nonneg_iff _ _).1 ha, (jsIndexOf_nonneg_iff _ _).1 hb, by omega⟩
  · refine Or.inr (Or.inl ⟨(jsIndexOf_nonneg_iff _ _).1 ha, ?_⟩)
    intro hmem
    exact hb ((jsIndexOf_nonneg_iff _ _).2 hmem)
  · exfalso
    rw [if_neg (by tauto), if_neg ha, if_pos hb] at h
    norm_num at h
  · rw [if_neg (by tauto), if_neg ha, if_neg hb] at h
    refine Or.inr (Or.inr ⟨fun hmem => ha ((jsIndexOf_nonneg_iff _ _).2 hmem),
      fun hmem => hb ((jsIndexOf_nonneg_iff _ _).2 hmem), ?_⟩)
    unfold localeCompare at h
    rcases (charListCmp_nonpos_iff _ _).1 h with heq | hlex
    · exact Or.inl (by rwa [String.ext_iff])
    · exact Or.inr hlex

/-- C1: for every list of field names, `getOrderedColumns` returns a
permutation of the input in which the fields of the preferred list come
first, in preferred-list order, followed by the remaining fields in
alphabetical order. -/
theorem getOrderedColumns_preferred_then_alpha (columns : List String) :
    (getOrderedColumns columns).Perm columns
      ∧ List.Pairwise colSpecOrdered (getOrderedColumns columns) := by
  constructor
  · exact List.perm_insertionSort colLE columns
  · have hs := @List.sorted_insertionSort String colLE _
      ⟨fun a b => colLE_total a b⟩ ⟨fun a b c => colLE_trans a b c⟩ columns
    exact hs.imp (fun h => colLE_spec h)

theorem orderedInsert_pairwise_key {α : Type} (r : α → α → Prop) [DecidableRel r] (k : α → ℕ)
    (h1 : ∀ a b, k a < k b → r a b) (h2 : ∀ a b, r a b → k a ≤ k b) (a : α) :
    ∀ l : List α, List.Pairwise (fun x y => k x ≤ k y) l →
      List.Pairwise (fun x y => k x ≤ k y) (List.orderedInsert r a l)
  | [], _ => by simp [List.orderedInsert]
  | b :: t, hl => by
    rw [List.orderedInsert]
    obtain ⟨hbt, ht⟩ := List.pairwise_cons.1 hl
    by_cases hr : r a b
    · rw [if_pos hr]
      have hab := h2 a b hr
      refine List.Pairwise.cons ?_ hl
      intro z hz
      rcases List.mem_cons.1 hz with rfl | hz'
      · exact hab
      · exact le_trans hab (hbt z hz')
    · rw [if_neg hr]
      have hba : k b ≤ k a := by
        by_contra hc
        push_neg at hc
        exact hr (h1 a b hc)
      refine List.Pairwise.cons ?_ (orderedInsert_pairwise_key r k h1 h2 a t ht)
      intro z hz
      rcases (List.mem_orderedInsert r).1 hz with rfl | hz'
      · exact hba
      · exact hbt z hz'

theorem insertionSort_pairwise_key {α : Type} (r : α → α → Prop) [DecidableRel r] (k : α → ℕ)
    (h1 : ∀ a b, k a < k b → r a b) (h2 : ∀ a b, r a b → k a ≤ k b) :
    ∀ l : List α, List.Pairwise (fun x y => k x ≤ k y) (List.insertionSort r l)
  | [] => by simp [List.insertionSort]
  | a :: t => by
    rw [List.insertionSort]
    exact orderedInsert_pairwise_key r k h1 h2 a _ (insertionSort_pairwise_key r k h1 h2 t)

theorem slices_flatten_aux {α : Type} (m : ℕ) :
    ∀ (N : ℕ) (l : List α), l.length ≤ N * m →
      ((List.range N).map (fun i => (l.drop (i * m)).take m)).flatten = l
  | 0, l, h => by
    have hl : l = [] := List.eq_nil_of_length_eq_zero (by omega)
    subst hl
    simp
  | N + 1, l, h => by
    rw [List.range_succ_eq_map, List.map_cons, List.map_map]
    have hstep : ((List.range N).map ((fun i => (l.drop (i * m)).take m) ∘ Nat.succ))
        = (List.range N).map (fun i => ((l.drop m).drop (i * m)).take m) := by
      refine List.map_congr_left ?_
      intro i _
      simp only [Function.comp_apply]
      rw [List.drop_drop, Nat.succ_mul, Nat.add_comm]
    rw [hstep]
    have hlen : (l.drop m).length ≤ N * m := by
      rw [List.length_drop]
      have : (N + 1) * m = N * m + m := by ring
      omega
    rw [List.flatten_cons, slices_flatten_aux m N (l.drop m) hlen]
    simp [List.take_append_drop]

theorem le_ceil_mul (n m : ℕ) (hm : 0 < m) : n ≤ ((n + m - 1) / m) * m := by
  rcases Nat.eq_zero_or_pos n with rfl | hn
  · simp
  · obtain ⟨k, rfl⟩ : ∃ k, n = k + 1 := ⟨n - 1, by omega⟩
    have h1 : (k + 1 + m - 1) / m = k / m + 1 := by
      have he : k + 1 + m - 1 = k + m := by omega
      rw [he, Nat.add_div_right k hm]
    rw [h1]
    have h2 := Nat.div_add_mod k m
    have h3 : k % m < m := Nat.mod_lt k hm
    have h4 : (k / m + 1) * m = m * (k / m) + m := by ring
    omega

theorem getSortedResults_skip_irrel (results : List Row) (p : Pagination) (s : ℕ) :
    getSortedResults results { p with skip := s } = getSortedResults results p := rfl

theorem getSortedResults_length (results : List Row) (p : Pagination) :
    (getSortedResults results p).length = results.length := by
  unfold getSortedResults
  cases hp : p.sort_field with
  | none => rfl
  | some f => exact (List.perm_insertionSort (sortLE p.sort_direction f) results).length_eq

/-- C3: for a fixed result set and sort state, the client-side pages taken
at skip values `0, limit, 2*limit, ...` (as many pages as cover the total)
concatenate to exactly the sorted result list — every row appears exactly
once — and the row count of the sorted list never depends on skip or
limit. -/
theorem getPaginatedResults_exhaustive (results : List Row) (p : Pagination)
    (hl : 0 < p.limit) :
    ((List.range ((results.length + p.limit - 1) / p.limit)).map
        (fun i => getPaginatedResults results { p with skip := i * p.limit })).flatten
      = getSortedResults results p
    ∧ (getSortedResults results p).length = results.length := by
  refine ⟨?_, getSortedResults_length results p⟩
  have hfun : (fun i => getPaginatedResults results { p with skip := i * p.limit })
      = fun i => ((getSortedResults results p).drop (i * p.limit)).take p.limit := by
    funext i
    unfold getPaginatedResults
    rw [getSortedResults_skip_irrel]
  rw [hfun]
  apply slices_flatten_aux
  rw [getSortedResults_length results p]
  exact le_ceil_mul results.length p.limit hl

/-- C3 witness: evaluation at a concrete three-row result set with page
size two. -/
theorem getPaginatedResults_exhaustive_witness :
    List.flatten
        ((List.range ((([[("a", JSVal.str "x")], [("a", JSVal.str "y")], [("a", JSVal.str "z")]] : List Row).length + 2 - 1) / 2)).map
          (fun i => getPaginatedResults [[("a", JSVal.str "x")], [("a", JSVal.str "y")], [("a", JSVal.str "z")]]
            { skip := i * 2, limit := 2, total := 3, sort_field := none, sort_direction := "asc" }))
      = getSortedResults [[("a", JSVal.str "x")], [("a", JSVal.str "y")], [("a", JSVal.str "z")]]
          { skip := 0, limit := 2, total := 3, sort_field := none, sort_direction := "asc" }
    ∧ (getSortedResults [[("a", JSVal.str "x")], [("a", JSVal.str "y")], [("a", JSVal.str "z")]]
          { skip := 0, limit := 2, total := 3, sort_field := none, sort_direction := "asc" }).length
      = ([[("a", JSVal.str "x")], [("a", JSVal.str "y")], [("a", JSVal.str "z")]] : List Row).length :=
  getPaginatedResults_exhaustive
    [[("a", JSVal.str "x")], [("a", JSVal.str "y")], [("a", JSVal.str "z")]]
    { skip := 0, limit := 2, total := 3, sort_field := none, sort_direction := "asc" }
    (by decide)

/-- C10: whatever page number is requested, with a positive limit the new
skip is a whole multiple `q * limit` with `q` at most the last page index
`max 0 (ceil(total/limit) - 1)` (natural subtraction realises the `max 0`);
in particular skip is never negative and never addresses a page past the
last one. -/
theorem handlePageChange_skip_invariant (newPage : Int) (p : Pagination)
    (hl : 0 < p.limit) :
    ∃ q : ℕ, (handlePageChange newPage p).skip = q * p.limit
      ∧ q ≤ (p.total + p.limit - 1) / p.limit - 1 := by
  simp only [handlePageChange]
  set tp := getTotalPages p with htp
  have htp1 : 1 ≤ tp := le_max_left 1 _
  have htpceil : tp - 1 ≤ (p.total + p.limit - 1) / p.limit - 1 := by
    have hmax : tp = max 1 ((p.total + p.limit - 1) / p.limit) := htp
    omega
  set np : ℤ := if newPage < 0 then 0 else newPage with hnp
  have hnp0 : 0 ≤ np := by rw [hnp]; split_ifs <;> omega
  set np2 : ℤ := if (tp : ℤ) ≤ np then (tp : ℤ) - 1 else np with hnp2
  have h0 : 0 ≤ np2 := by
    rw [hnp2]; split_ifs with h
    · have h1c : (1 : ℤ) ≤ (tp : ℤ) := by exact_mod_cast htp1
      omega
    · exact hnp0
  have h1 : np2 ≤ (tp : ℤ) - 1 := by
    rw [hnp2]; split_ifs with h <;> omega
  have hq : ((np2.toNat : ℤ)) = np2 := Int.toNat_of_nonneg h0
  have hbound : np2.toNat ≤ (p.total + p.limit - 1) / p.limit - 1 := by omega
  have hmul : np2 * (p.limit : ℤ) = ((np2.toNat * p.limit : ℕ) : ℤ) := by
    rw [Nat.cast_mul, hq]
  refine ⟨np2.toNat, ?_, hbound⟩
  by_cases hc : np2 * (p.limit : ℤ) ≠ (p.skip : ℤ)
  · rw [if_pos hc]
    show (np2 * (p.limit : ℤ)).toNat = np2.toNat * p.limit
    rw [hmul, Int.toNat_natCast]
  · rw [if_neg hc]
    push_neg at hc
    show p.skip = np2.toNat * p.limit
    rw [hmul] at hc
    exact_mod_cast hc.symm

/-- C10 witness: requesting page 9 on a 45-row result with page size 20
lands on a valid page boundary not past the last page. -/
theorem handlePageChange_skip_invariant_witness :
    ∃ q : ℕ,
      (handlePageChange 9 ⟨0, 20, 45, none, "asc"⟩).skip = q * 20
      ∧ q ≤ (45 + 20 - 1) / 20 - 1 :=
  handlePageChange_skip_invariant 9 ⟨0, 20, 45, none, "asc"⟩ (by decide)

set_option maxRecDepth 4096

/-- C4: evaluation showing the defect the bug report describes: after
hide-all sets every visibility entry to false, `getVisibleColumns` still
returns the first three columns (the identity fields), even though their
entries in the single visibility mapping are false. -/
theorem hideAll_fallback_forces_identity_columns :
    getVisibleColumns (getOrderedColumns fieldNames)
        (toggleAllColumns (getOrderedColumns fieldNames) false)
      = ["agn_id", "ra", "declination"]
    ∧ visibleLookup (toggleAllColumns (getOrderedColumns fieldNames) false) "agn_id" = false
    ∧ visibleLookup (toggleAllColumns (getOrderedColumns fieldNames) false) "ra" = false
    ∧ visibleLookup (toggleAllColumns (getOrderedColumns fieldNames) false) "declination" = false := by
  refine ⟨by decide, by decide, by decide, by decide⟩

/-- C2 counterexample: combining two one-rule queries does produce the
`or` combinator, but the rules list is not exactly the concatenation of the
two original rules lists — each rule is rewritten with
`valueSource := some "value"`. -/
theorem combineQueries_not_plain_concat :
    (combineQueries lqExample pqExample).combinator = "or"
    ∧ (combineQueries lqExample pqExample).rules ≠ lqExample.rules ++ pqExample.rules := by
  refine ⟨rfl, ?_⟩
  simp [combineQueries, lqExample, pqExample, setValueSourceValue]

/-- C2 (amended): submitting while a previous query has results opens the
choice modal and does not execute; combining produces a root with the `or`
combinator whose rules are the concatenation of the rules of the previous root
and the rules of the pending root, each child rewritten with its `valueSource`
set to `"value"`; the combined query is what gets installed and executed. -/
theorem handleSubmit_combine_amended (s : QSState) (hq : s.hasExecutedQuery = true)
    (hr : 0 < s.results.length) (lq pq : QueryRoot) :
    (handleSubmit s).2 = false
    ∧ (handleSubmit s).1.showQueryModal = true
    ∧ (handleSubmit s).1.pendingQuery = some s.query
    ∧ (handleSubmit s).1.results = s.results
    ∧ (combineQueries lq pq).combinator = "or"
    ∧ (combineQueries lq pq).rules = (lq.rules ++ pq.rules).map setValueSourceValue
    ∧ (∀ s2 : QSState, s2.lastExecutedQuery = some lq → s2.pendingQuery = some pq →
        ∃ s3 : QSState, handleCombineQueries s2 = some (s3, true)
          ∧ s3.query = combineQueries lq pq
          ∧ s3.lastExecutedQuery = some (combineQueries lq pq)
          ∧ s3.showQueryModal = false
          ∧ s3.results = []) := by
  refine ⟨?_, ?_, ?_, ?_, rfl, ?_, ?_⟩
  · simp [handleSubmit, hq, hr]
  · simp [handleSubmit, hq, hr]
  · simp [handleSubmit, hq, hr]
  · simp [handleSubmit, hq, hr]
  · simp [combineQueries]
  · intro s2 h1 h2
    unfold handleCombineQueries
    rw [h1, h2]
    exact ⟨_, rfl, rfl, rfl, rfl, rfl⟩

/-- C2 witness: the amended behaviour evaluated on a concrete state holding
results of a previously executed query. -/
theorem handleSubmit_combine_amended_witness :
    (handleSubmit sExample).2 = false
    ∧ (combineQueries lqExample pqExample).rules
      = (lqExample.rules ++ pqExample.rules).map setValueSourceValue :=
  ⟨(handleSubmit_combine_amended sExample rfl (by decide) lqExample pqExample).1,
   (handleSubmit_combine_amended sExample rfl (by decide) lqExample pqExample).2.2.2.2.2.1⟩

/-- C5: a user-initiated cancel of a search or an export sets the
deliberate cancellation message as the error state (status-free, distinct
from the timeout error), the export rejection handler rewrites the abort
into the cancellation error before the dialog sees it, and the message
renderer displays both as a deliberate cancellation rather than a timeout
or generic failure. -/
theorem cancellation_reported_as_deliberate :
    (∀ s : QSState, (handleCancelSearch s).error
        = some ⟨"", "Search cancelled by user", none, none⟩)
    ∧ (∀ s : ExportDialogState, (handleCancelExport s).error
        = some ⟨"", "Export cancelled by user", none, none⟩)
    ∧ (∀ m st d, exportCatchRejection ⟨"AbortError", m, st, d⟩
        = ⟨"Error", "Export cancelled by user", none, none⟩)
    ∧ getErrorMessage (some ⟨"", "Search cancelled by user", none, none⟩)
      = "Operation cancelled by user."
    ∧ getErrorMessage (some ⟨"", "Export cancelled by user", none, none⟩)
      = "Operation cancelled by user."
    ∧ getErrorMessage (some ⟨"Error", "Export cancelled by user", none, none⟩)
      = "Operation cancelled by user."
    ∧ "Search cancelled by user" ≠ queryTimeoutMessage
    ∧ "Export cancelled by user" ≠ queryTimeoutMessage
    ∧ "Operation cancelled by user." ≠ "An error occurred" :=
  ⟨fun _ => rfl, fun _ => rfl, fun _ _ _ => rfl, by decide, by decide, by decide,
   by decide, by decide, by decide⟩

/-- C7 counterexample: a deliberate user abort — a failure kind distinct
from the timeout timer — is also mapped by `apiRequest` to the status-408
timeout error with the narrow-your-query message. -/
theorem userAbort_maps_to_timeout_error :
    apiRequestResult (abortOutcome AbortCause.userAborted)
      = Except.error ⟨"Error", queryTimeoutMessage, some 408, none⟩
    ∧ AbortCause.userAborted ≠ AbortCause.timerFired :=
  ⟨rfl, by decide⟩

/-- C7 (amended): when the timeout timer fires the request rejects with the
status-408 timeout error carrying the narrow-your-query message; every
abort (timer or user cancellation) maps to that same error, and no other
failure produces it — non-abort rejections pass through unchanged and HTTP
failures carry the server status and the body (or generic) message. -/
theorem apiRequest_timeout_amended :
    apiRequestResult (abortOutcome AbortCause.timerFired)
      = Except.error ⟨"Error", queryTimeoutMessage, some 408, none⟩
    ∧ (∀ c : AbortCause, apiRequestResult (abortOutcome c)
        = Except.error ⟨"Error", queryTimeoutMessage, some 408, none⟩)
    ∧ (∀ e : JsError, e.name ≠ "AbortError" →
        apiRequestResult (FetchOutcome.reject e) = Except.error e)
    ∧ (∀ (st : ℕ) (m : Option String) (d : Option String),
        apiRequestResult (FetchOutcome.jsonResp false st m d)
          = Except.error ⟨"Error", jsOrElse m "An error occurred", some st, d⟩)
    ∧ (∀ m : Option String, m ≠ some queryTimeoutMessage →
        jsOrElse m "An error occurred" ≠ queryTimeoutMessage)
    ∧ (∀ (st : ℕ) (b : String),
        apiRequestResult (FetchOutcome.textResp false st b)
          = Except.error ⟨"Error", "An error occurred", some st, none⟩) := by
  refine ⟨rfl, fun c => rfl, ?_, fun st m d => rfl, ?_, fun st b => rfl⟩
  · intro e he
    simp only [apiRequestResult]
    rw [if_neg he]
  · intro m hm
    match m with
    | none => decide
    | some s =>
        simp only [jsOrElse]
        split_ifs with h
        · decide
        · intro heq
          exact hm (by rw [heq])

/-- C7 witness: the amended behaviour at a concrete network failure and at
the timeout timer. -/
theorem apiRequest_timeout_amended_witness :
    apiRequestResult (FetchOutcome.reject ⟨"TypeError", "Failed to fetch", none, none⟩)
      = Except.error ⟨"TypeError", "Failed to fetch", none, none⟩
    ∧ apiRequestResult (abortOutcome AbortCause.timerFired)
      = Except.error ⟨"Error", queryTimeoutMessage, some 408, none⟩ :=
  ⟨apiRequest_timeout_amended.2.2.1 ⟨"TypeError", "Failed to fetch", none, none⟩ (by decide),
   apiRequest_timeout_amended.1⟩

/-- C8: when the Export button is enabled the selection is non-empty and
the request built carries exactly that non-empty list; an empty selection
disables the button; and no request ever carries an empty list (the empty
branch sends the defaults-to-all marker instead). -/
theorem export_requires_nonempty_selection (s : ExportDialogState)
    (h : exportButtonDisabled s = false) :
    (buildExportOptions s).selected_fields = some s.selectedFields
    ∧ s.selectedFields ≠ []
    ∧ (∀ t : ExportDialogState, t.selectedFields = [] → exportButtonDisabled t = true)
    ∧ (∀ t : ExportDialogState, (buildExportOptions t).selected_fields ≠ some []) := by
  have hlen : 0 < s.selectedFields.length := by
    unfold exportButtonDisabled at h
    simp only [decide_eq_false_iff_not] at h
    omega
  refine ⟨?_, ?_, ?_, ?_⟩
  · unfold buildExportOptions
    rw [if_pos hlen]
  · intro hnil
    rw [hnil] at hlen
    simp at hlen
  · intro t ht
    unfold exportButtonDisabled
    rw [ht]
    decide
  · intro t
    unfold buildExportOptions
    split_ifs with h2
    · simp only [ne_eq, Option.some.injEq]
      intro h3
      rw [h3] at h2
      simp at h2
    · simp

/-- C8 witness: the enabled-button case evaluated on a concrete dialog
state with one selected field. -/
theorem export_requires_nonempty_selection_witness :
    (buildExportOptions sdExample).selected_fields = some sdExample.selectedFields
    ∧ sdExample.selectedFields ≠ [] :=
  ⟨(export_requires_nonempty_selection sdExample (by decide)).1,
   (export_requires_nonempty_selection sdExample (by decide)).2.1⟩

theorem string_eq_iff_toList {a b : String} : a = b ↔ a.toList = b.toList := by
  rw [String.ext_iff]
  exact Iff.rfl

theorem sortLE_asc_of_null_left {f : String} {x y : Row}
    (hx : isNullish (rowGet x f) = true) : sortLE "asc" f x y := by
  unfold sortLE sortCompare
  dsimp only
  simp [hx]

theorem sortLE_asc_not_of_null_right {f : String} {x y : Row}
    (hx : isNullish (rowGet x f) = false) (hy : isNullish (rowGet y f) = true) :
    ¬ sortLE "asc" f x y := by
  unfold sortLE sortCompare
  dsimp only
  simp [hx, hy]

theorem sortLE_desc_of_null_right {f : String} {x y : Row}
    (hx : isNullish (rowGet x f) = false) (hy : isNullish (rowGet y f) = true) :
    sortLE "desc" f x y := by
  unfold sortLE sortCompare
  dsimp only
  simp [hx, hy]

theorem sortLE_desc_not_of_null_left {f : String} {x y : Row}
    (hx : isNullish (rowGet x f) = true) : ¬ sortLE "desc" f x y := by
  unfold sortLE sortCompare
  dsimp only
  simp [hx]

theorem getSortedResults_asc_nulls_first (results : List Row) (f : String)
    (skip limit total : ℕ) :
    List.Pairwise (fun x y => isNullish (rowGet y f) = true → isNullish (rowGet x f) = true)
      (getSortedResults results ⟨skip, limit, total, some f, "asc"⟩) := by
  have h1 : ∀ r s : Row,
      (if isNullish (rowGet r f) = true then 0 else 1)
        < (if isNullish (rowGet s f) = true then 0 else 1) → sortLE "asc" f r s := by
    intro r s hk
    by_cases hr : isNullish (rowGet r f) = true
    · exact sortLE_asc_of_null_left hr
    · by_cases hs : isNullish (rowGet s f) = true <;> simp [hr, hs] at hk
  have h2 : ∀ r s : Row, sortLE "asc" f r s →
      (if isNullish (rowGet r f) = true then 0 else 1)
        ≤ (if isNullish (rowGet s f) = true then 0 else 1) := by
    intro r s hrs
    by_cases hr : isNullish (rowGet r f) = true
    · simp [hr]
    · by_cases hs : isNullish (rowGet s f) = true
      · have hr' : isNullish (rowGet r f) = false := by simpa using hr
        exact absurd hrs (sortLE_asc_not_of_null_right hr' hs)
      · simp [hr, hs]
  have hp := insertionSort_pairwise_key (sortLE "asc" f)
    (fun r => if isNullish (rowGet r f) = true then 0 else 1) h1 h2 results
  refine hp.imp ?_
  intro x y hk hyn
  by_cases hx : isNullish (rowGet x f) = true
  · exact hx
  · simp [hx, hyn] at hk

theorem getSortedResults_desc_nulls_last (results : List Row) (f : String)
    (skip limit total : ℕ) :
    List.Pairwise (fun x y => isNullish (rowGet x f) = true → isNullish (rowGet y f) = true)
      (getSortedResults results ⟨skip, limit, total, some f, "desc"⟩) := by
  have h1 : ∀ r s : Row,
      (if isNullish (rowGet r f) = true then 1 else 0)
        < (if isNullish (rowGet s f) = true then 1 else 0) → sortLE "desc" f r s := by
    intro r s hk
    by_cases hr : isNullish (rowGet r f) = true
    · by_cases hs : isNullish (rowGet s f) = true <;> simp [hr, hs] at hk
    · by_cases hs : isNullish (rowGet s f) = true
      · have hr' : isNullish (rowGet r f) = false := by simpa using hr
        exact sortLE_desc_of_null_right hr' hs
      · simp [hr, hs] at hk
  have h2 : ∀ r s : Row, sortLE "desc" f r s →
      (if isNullish (rowGet r f) = true then 1 else 0)
        ≤ (if isNullish (rowGet s f) = true then 1 else 0) := by
    intro r s hrs
    by_cases hr : isNullish (rowGet r f) = true
    · exact absurd hrs (sortLE_desc_not_of_null_left hr)
    · simp [hr]
  have hp := insertionSort_pairwise_key (sortLE "desc" f)
    (fun r => if isNullish (rowGet r f) = true then 1 else 0) h1 h2 results
  refine hp.imp ?_
  intro x y hk hxn
  by_cases hy : isNullish (rowGet y f) = true
  · exact hy
  · simp [hxn, hy] at hk

theorem sortLE_asc_num {f : String} {a b : Row}
    (ha : isNullish (rowGet a f) = false) (hb : isNullish (rowGet b f) = false)
    {x y : ℚ} (hA : toNumber (rowGet a f) = some x) (hB : toNumber (rowGet b f) = some y) :
    sortLE "asc" f a b ↔ x ≤ y := by
  unfold sortLE sortCompare
  dsimp only
  simp [ha, hb, hA, hB, sub_nonpos]

theorem sortLE_desc_num {f : String} {a b : Row}
    (ha : isNullish (rowGet a f) = false) (hb : isNullish (rowGet b f) = false)
    {x y : ℚ} (hA : toNumber (rowGet a f) = some x) (hB : toNumber (rowGet b f) = some y) :
    sortLE "desc" f a b ↔ y ≤ x := by
  unfold sortLE sortCompare
  dsimp only
  simp [ha, hb, hA, hB, sub_nonpos]

theorem sortLE_asc_str {f : String} {a b : Row}
    (ha : isNullish (rowGet a f) = false) (hb : isNullish (rowGet b f) = false)
    (hO : toNumber (rowGet a f) = none ∨ toNumber (rowGet b f) = none) :
    sortLE "asc" f a b
      ↔ ciStringLE (jsToString (rowGet a f)) (jsToString (rowGet b f)) := by
  unfold sortLE sortCompare
  dsimp only
  simp only [ha, hb, Bool.false_eq_true, if_false]
  have hfin : (↑(localeCompare (jsToLower (jsToString (rowGet a f)))
        (jsToLower (jsToString (rowGet b f)))) : ℚ) ≤ 0
      ↔ ciStringLE (jsToString (rowGet a f)) (jsToString (rowGet b f)) := by
    rw [Int.cast_nonpos]
    unfold localeCompare ciStringLE
    rw [charListCmp_nonpos_iff]
    exact or_congr string_eq_iff_toList.symm Iff.rfl
  cases hA : toNumber (rowGet a f) with
  | none =>
      simp only [hA]
      simp only [if_true]
      exact hfin
  | some p =>
      cases hB : toNumber (rowGet b f) with
      | none =>
          simp only [hA, hB]
          simp only [if_true]
          exact hfin
      | some q => exact absurd hO (by simp [hA, hB])

theorem sortLE_desc_str {f : String} {a b : Row}
    (ha : isNullish (rowGet a f) = false) (hb : isNullish (rowGet b f) = false)
    (hO : toNumber (rowGet a f) = none ∨ toNumber (rowGet b f) = none) :
    sortLE "desc" f a b
      ↔ ciStringLE (jsToString (rowGet b f)) (jsToString (rowGet a f)) := by
  unfold sortLE sortCompare
  dsimp only
  simp only [ha, hb, Bool.false_eq_true, if_false]
  have hneg := charListCmp_neg (jsToLower (jsToString (rowGet a f))).toList
    (jsToLower (jsToString (rowGet b f))).toList
  have hfin : -(↑(localeCompare (jsToLower (jsToString (rowGet a f)))
        (jsToLower (jsToString (rowGet b f)))) : ℚ) ≤ 0
      ↔ ciStringLE (jsToString (rowGet b f)) (jsToString (rowGet a f)) := by
    rw [neg_nonpos, Int.cast_nonneg]
    have hiff : (0 ≤ localeCompare (jsToLower (jsToString (rowGet a f)))
          (jsToLower (jsToString (rowGet b f))))
        ↔ (localeCompare (jsToLower (jsToString (rowGet b f)))
          (jsToLower (jsToString (rowGet a f))) ≤ 0) := by
      unfold localeCompare
      omega
    rw [hiff]
    unfold localeCompare ciStringLE
    rw [charListCmp_nonpos_iff]
    exact or_congr string_eq_iff_toList.symm Iff.rfl
  cases hA : toNumber (rowGet a f) with
  | none =>
      simp only [hA]
      rw [if_neg (show ¬ ("desc" = "asc") from by decide)]
      exact hfin
  | some p =>
      cases hB : toNumber (rowGet b f) with
      | none =>
          simp only [hA, hB]
          rw [if_neg (show ¬ ("desc" = "asc") from by decide)]
          exact hfin
      | some q => exact absurd hO (by simp [hA, hB])

/-- C9: in the client-side result sort, rows whose sort-field value is null
or undefined come before every non-null row under ascending direction and
after them under descending direction; for two non-null rows the
comparator orders them numerically when both values convert to numbers and
by case-insensitive string comparison otherwise. -/
theorem getSortedResults_comparator_spec (results : List Row) (f : String)
    (skip limit total : ℕ) (a b : Row)
    (ha : isNullish (rowGet a f) = false) (hb : isNullish (rowGet b f) = false) :
    List.Pairwise (fun x y => isNullish (rowGet y f) = true → isNullish (rowGet x f) = true)
        (getSortedResults results ⟨skip, limit, total, some f, "asc"⟩)
    ∧ List.Pairwise (fun x y => isNullish (rowGet x f) = true → isNullish (rowGet y f) = true)
        (getSortedResults results ⟨skip, limit, total, some f, "desc"⟩)
    ∧ (match toNumber (rowGet a f), toNumber (rowGet b f) with
       | some x, some y => (sortLE "asc" f a b ↔ x ≤ y) ∧ (sortLE "desc" f a b ↔ y ≤ x)
       | _, _ =>
           (sortLE "asc" f a b
             ↔ ciStringLE (jsToString (rowGet a f)) (jsToString (rowGet b f)))
           ∧ (sortLE "desc" f a b
             ↔ ciStringLE (jsToString (rowGet b f)) (jsToString (rowGet a f)))) := by
  refine ⟨getSortedResults_asc_nulls_first results f skip limit total,
          getSortedResults_desc_nulls_last results f skip limit total, ?_⟩
  cases hA : toNumber (rowGet a f) with
  | some x =>
      cases hB : toNumber (rowGet b f) with
      | some y => exact ⟨sortLE_asc_num ha hb hA hB, sortLE_desc_num ha hb hA hB⟩
      | none => exact ⟨sortLE_asc_str ha hb (Or.inr hB), sortLE_desc_str ha hb (Or.inr hB)⟩
  | none =>
      exact ⟨sortLE_asc_str ha hb (Or.inl hA), sortLE_desc_str ha hb (Or.inl hA)⟩

/-- C9 witness: the sort semantics evaluated at a concrete result set with
a null row and two numeric rows. -/
theorem getSortedResults_comparator_spec_witness :
    List.Pairwise (fun x y => isNullish (rowGet y "z_value") = true
          → isNullish (rowGet x "z_value") = true)
        (getSortedResults
          [[("z_value", JSVal.num 1)], [("z_value", JSVal.num 2)], [("z_value", JSVal.null)]]
          ⟨0, 20, 0, some "z_value", "asc"⟩)
    ∧ List.Pairwise (fun x y => isNullish (rowGet x "z_value") = true
          → isNullish (rowGet y "z_value") = true)
        (getSortedResults
          [[("z_value", JSVal.num 1)], [("z_value", JSVal.num 2)], [("z_value", JSVal.null)]]
          ⟨0, 20, 0, some "z_value", "desc"⟩)
    ∧ (match toNumber (rowGet [[("z_value", JSVal.num 1)], [("z_value", JSVal.num 2)],
          [("z_value", JSVal.null)]].head! "z_value"),
         toNumber (rowGet [("z_value", JSVal.num 2)] "z_value") with
       | some x, some y =>
           (sortLE "asc" "z_value" [[("z_value", JSVal.num 1)], [("z_value", JSVal.num 2)],
              [("z_value", JSVal.null)]].head! [("z_value", JSVal.num 2)] ↔ x ≤ y)
           ∧ (sortLE "desc" "z_value" [[("z_value", JSVal.num 1)], [("z_value", JSVal.num 2)],
              [("z_value", JSVal.null)]].head! [("z_value", JSVal.num 2)] ↔ y ≤ x)
       | _, _ =>
           (sortLE "asc" "z_value" [[("z_value", JSVal.num 1)], [("z_value", JSVal.num 2)],
              [("z_value", JSVal.null)]].head! [("z_value", JSVal.num 2)]
             ↔ ciStringLE (jsToString (rowGet [[("z_value", JSVal.num 1)],
                [("z_value", JSVal.num 2)], [("z_value", JSVal.null)]].head! "z_value"))
               (jsToString (rowGet [("z_value", JSVal.num 2)] "z_value")))
           ∧ (sortLE "desc" "z_value" [[("z_value", JSVal.num 1)], [("z_value", JSVal.num 2)],
              [("z_value", JSVal.null)]].head! [("z_value", JSVal.num 2)]
             ↔ ciStringLE (jsToString (rowGet [("z_value", JSVal.num 2)] "z_value"))
               (jsToString (rowGet [[("z_value", JSVal.num 1)], [("z_value", JSVal.num 2)],
                  [("z_value", JSVal.null)]].head! "z_value")))) :=
  getSortedResults_comparator_spec
    [[("z_value", JSVal.num 1)], [("z_value", JSVal.num 2)], [("z_value", JSVal.null)]]
    "z_value" 0 20 0
    [[("z_value", JSVal.num 1)], [("z_value", JSVal.num 2)], [("z_value", JSVal.null)]].head!
    [("z_value", JSVal.num 2)] (by decide) (by decide)

theorem dropWhile_all_neg {p : Char → Bool} :
    ∀ l : List Char, (∀ c ∈ l, p c = false) → List.dropWhile p l = l
  | [], _ => rfl
  | c :: t, h => by
    rw [List.dropWhile_cons, h c (List.mem_cons_self c t)]
    simp

theorem trimChars_eq_self {l : List Char} (h : ∀ c ∈ l, c.isWhitespace = false) :
    trimChars l = l := by
  unfold trimChars
  rw [dropWhile_all_neg l h]
  rw [dropWhile_all_neg l.reverse (fun c hc => h c (List.mem_reverse.1 hc))]
  exact List.reverse_reverse l

theorem jsFilenameMatch_cons_ne {c : Char} (t : List Char) (h : c ≠ 'f') :
    jsFilenameMatch (c :: t) = jsFilenameMatch t := by
  rw [jsFilenameMatch]
  have hpre : (("filename=".toList).isPrefixOf (c :: t)) = false := by
    simp only [List.isPrefixOf]
    show (('f' == c) && _) = false
    have : ('f' == c) = false := by
      simp only [beq_eq_false_iff_ne, ne_eq]
      exact fun hc => h hc.symm
    rw [this, Bool.false_and]
  rw [hpre]
  simp

theorem jsFilenameMatch_found (u : List Char) :
    jsFilenameMatch ('f' :: 'i' :: 'l' :: 'e' :: 'n' :: 'a' :: 'm' :: 'e' :: '=' :: '"' :: u)
      = some ('"' :: u.takeWhile (fun x => x ≠ ';')) := by
  rw [jsFilenameMatch]
  have hpre : (("filename=".toList).isPrefixOf
      ('f' :: 'i' :: 'l' :: 'e' :: 'n' :: 'a' :: 'm' :: 'e' :: '=' :: '"' :: u)) = true := by
    simp [List.isPrefixOf]
  rw [hpre]
  simp only [if_true]
  have hdrop : (('f' :: 'i' :: 'l' :: 'e' :: 'n' :: 'a' :: 'm' :: 'e' :: '=' :: '"' :: u).drop 9) = '"' :: u := rfl
  rw [hdrop]
  rw [List.takeWhile_cons]
  simp

/-- C6: a Content-Disposition header carrying a `filename=` parameter wins
(with quotes stripped); with no header at all the filename defaults to
`export.csv` for the csv format and `agn_db_export.xml` for the votable
format. -/
theorem export_filename_selection (format : String) (name : List Char)
    (hne : name ≠ [])
    (hch : ∀ c ∈ name, c ≠ ';' ∧ c ≠ '"' ∧ c.isWhitespace = false) :
    extractFilename
        (some (String.mk ("attachment; filename=".toList ++ '"' :: name ++ ['"']))) format
      = String.mk name
    ∧ extractFilename none "csv" = "export.csv"
    ∧ extractFilename none "votable" = "agn_db_export.xml" := by
  refine ⟨?_, rfl, rfl⟩
  have htake : List.takeWhile (fun x => x ≠ ';') (name ++ ['"']) = name ++ ['"'] := by
    rw [List.takeWhile_eq_self_iff]
    intro x hx
    rcases List.mem_append.1 hx with hx2 | hx2
    · simp [(hch x hx2).1]
    · rcases List.mem_singleton.1 hx2 with rfl
      decide
  have hmatch : jsFilenameMatch
      ((String.mk ("attachment; filename=".toList ++ '"' :: name ++ ['"'])).toList)
      = some ('"' :: (name ++ ['"'])) := by
    show jsFilenameMatch
        ('a' :: 't' :: 't' :: 'a' :: 'c' :: 'h' :: 'm' :: 'e' :: 'n' :: 't' :: ';' :: ' ' ::
          'f' :: 'i' :: 'l' :: 'e' :: 'n' :: 'a' :: 'm' :: 'e' :: '=' :: '"' :: (name ++ ['"']))
      = some ('"' :: (name ++ ['"']))
    rw [jsFilenameMatch_cons_ne _ (by decide), jsFilenameMatch_cons_ne _ (by decide),
      jsFilenameMatch_cons_ne _ (by decide), jsFilenameMatch_cons_ne _ (by decide),
      jsFilenameMatch_cons_ne _ (by decide), jsFilenameMatch_cons_ne _ (by decide),
      jsFilenameMatch_cons_ne _ (by decide), jsFilenameMatch_cons_ne _ (by decide),
      jsFilenameMatch_cons_ne _ (by decide), jsFilenameMatch_cons_ne _ (by decide),
      jsFilenameMatch_cons_ne _ (by decide), jsFilenameMatch_cons_ne _ (by decide)]
    rw [jsFilenameMatch_found (name ++ ['"']), htake]
  unfold extractFilename
  dsimp only
  rw [hmatch]
  dsimp only
  have htrim : trimChars ('"' :: (name ++ ['"'])) = '"' :: (name ++ ['"']) := by
    refine trimChars_eq_self ?_
    intro c hc
    rcases List.mem_cons.1 hc with rfl | hc2
    · decide
    · rcases List.mem_append.1 hc2 with hc3 | hc3
      · exact (hch c hc3).2.2
      · rcases List.mem_singleton.1 hc3 with rfl
        decide
  rw [htrim, List.filter_cons]
  have hq : (decide (('"' : Char) ≠ '"')) = false := by decide
  rw [hq]
  simp only [Bool.false_eq_true, if_false]
  rw [List.filter_append]
  have hfn : List.filter (fun c => decide (c ≠ '"')) name = name := by
    rw [List.filter_eq_self]
    intro c hc
    simp [(hch c hc).2.1]
  have hfq : List.filter (fun c => decide (c ≠ '"')) ['"'] = [] := by decide
  rw [hfn, hfq, List.append_nil]

/-- C6 witness: the header and no-header cases evaluated at a concrete
filename. -/
theorem export_filename_selection_witness :
    extractFilename
        (some (String.mk ("attachment; filename=".toList ++ '"' :: "data.csv".toList ++ ['"'])))
        "csv"
      = String.mk "data.csv".toList
    ∧ extractFilename none "votable" = "agn_db_export.xml" :=
  ⟨(export_filename_selection "csv" "data.csv".toList (by decide) (by decide)).1,
   (export_filename_selection "csv" "data.csv".toList (by decide) (by decide)).2.2⟩
